import Mathlib

/-!
Shallow embedding of the trading analytics engine of the `Statistics`
component in `src/components/TradeLog.tsx`, together with proofs of the
specification claims about it.

Conventions of the embedding:
* JavaScript numbers are modelled as rationals (`ℚ`); the algorithms use
  only field arithmetic, comparisons, `Math.abs`, `Math.max` and `Math.min`,
  all of which are exact on the rationals.
* `Date` values are modelled by their epoch-millisecond value
  (`Date.getTime()`), an integer; `Date.getDay()` is modelled by the UTC
  day-of-week formula on epoch days.
* `Array.prototype.sort` with comparator `(a, b) => ka - kb` is a stable
  sort by the key `k`; it is modelled by `List.insertionSort` with the
  non-strict key order, which is stable in the same sense.
* JavaScript truthiness tests on a number (`t.stopLoss && t.takeProfit`)
  are the test "nonzero".
-/

attribute [local semireducible] Rat.mul Rat.add Rat.sub Rat.inv

inductive Status where
  | opened : Status
  | closed : Status
deriving DecidableEq, Repr

/-- The `Trade` record of `TradeLog.tsx` (the fields the analytics engine
reads; presentation-only fields `notes`, `emotion`, `mindsetBefore`,
`mindsetAfter`, `type`, `exitPrice`, `id` are carried or dropped as the
claims require). -/
structure Trade where
  id : String
  instrument : String
  lotSize : ℚ
  entryPrice : ℚ
  stopLoss : ℚ
  takeProfit : ℚ
  result : ℚ
  timestamp : ℤ
  openDate : ℤ
  closeDate : Option ℤ
  status : Status
deriving DecidableEq, Repr

/-- `filteredTrades.sort((a, b) => new Date(a.timestamp).getTime() - new Date(b.timestamp).getTime())`:
stable ascending sort by `timestamp`. -/
def sortAsc (ts : List Trade) : List Trade :=
  ts.insertionSort (fun a b => a.timestamp ≤ b.timestamp)

/-- `[...trades].sort((a, b) => new Date(b.timestamp).getTime() - new Date(a.timestamp).getTime())`:
stable descending sort by `timestamp`. -/
def sortDesc (ts : List Trade) : List Trade :=
  ts.insertionSort (fun a b => b.timestamp ≤ a.timestamp)

/-! ## Core metrics (`advancedStats` in `TradeLog.tsx`)

The source computes all of these in one `useMemo` over `filteredTrades`,
with an early return of all-zero values for the empty list.  Each metric
below is the corresponding expression; on the empty list each of them
evaluates to the same zero value the early return produces (division by
zero is 0 on `ℚ`, matching the guards in the source). -/

def winTrades (ts : List Trade) : List Trade :=
  ts.filter (fun t => 0 < t.result)

def lossTrades (ts : List Trade) : List Trade :=
  ts.filter (fun t => t.result < 0)

def winCount (ts : List Trade) : ℕ := (winTrades ts).length

def lossCount (ts : List Trade) : ℕ := (lossTrades ts).length

def totalPnL (ts : List Trade) : ℚ := (ts.map (fun t => t.result)).sum

def winRate (ts : List Trade) : ℚ := ((winCount ts : ℚ) / ts.length) * 100

def avgWin (ts : List Trade) : ℚ :=
  if 0 < winCount ts then ((winTrades ts).map (fun t => t.result)).sum / winCount ts else 0

def avgLoss (ts : List Trade) : ℚ :=
  if 0 < lossCount ts then |((lossTrades ts).map (fun t => t.result)).sum / lossCount ts| else 0

def totalWinAmount (ts : List Trade) : ℚ := avgWin ts * winCount ts

def totalLossAmount (ts : List Trade) : ℚ := avgLoss ts * lossCount ts

/-- `const profitFactor = totalLossAmount > 0 ? totalWinAmount / totalLossAmount : totalWinAmount > 0 ? 999 : 0` -/
def profitFactorRaw (ts : List Trade) : ℚ :=
  if 0 < totalLossAmount ts then totalWinAmount ts / totalLossAmount ts
  else if 0 < totalWinAmount ts then 999 else 0

/-- The value the stats object exposes: `profitFactor > 999 ? 999 : profitFactor`. -/
def profitFactor (ts : List Trade) : ℚ :=
  if 999 < profitFactorRaw ts then 999 else profitFactorRaw ts

/-- `const avgRR = avgLoss > 0 ? avgWin / avgLoss : 0` -/
def avgRR (ts : List Trade) : ℚ :=
  if 0 < avgLoss ts then avgWin ts / avgLoss ts else 0

/-- `const kellyPercent = winRate > 0 && avgLoss > 0 ? ((winRate / 100) - ((100 - winRate) / 100) / avgRR) * 100 : 0` -/
def kellyPercent (ts : List Trade) : ℚ :=
  if 0 < winRate ts ∧ 0 < avgLoss ts then
    ((winRate ts / 100) - ((100 - winRate ts) / 100) / avgRR ts) * 100
  else 0

/-! ## Streaks -/

/-- One step of the walk in `calculateConsecutiveWins`: state is
`(maxWins, currentWins)`. -/
def winsStep (p : ℕ × ℕ) (t : Trade) : ℕ × ℕ :=
  if 0 < t.result then (max p.1 (p.2 + 1), p.2 + 1) else (p.1, 0)

def calculateConsecutiveWins (ts : List Trade) : ℕ :=
  ((sortAsc ts).foldl winsStep (0, 0)).1

/-- One step of the walk in `calculateConsecutiveLosses`: state is
`(maxLosses, currentLosses)`. -/
def lossesStep (p : ℕ × ℕ) (t : Trade) : ℕ × ℕ :=
  if t.result < 0 then (max p.1 (p.2 + 1), p.2 + 1) else (p.1, 0)

def calculateConsecutiveLosses (ts : List Trade) : ℕ :=
  ((sortAsc ts).foldl lossesStep (0, 0)).1

inductive StreakType where
  | win : StreakType
  | loss : StreakType
  | none : StreakType
deriving DecidableEq, Repr

structure Streak where
  type : StreakType
  count : ℕ
deriving DecidableEq, Repr

/-- The counting loop of `calculateCurrentStreak`: walk the descending-sorted
list from the most recent trade, counting while the result shares the sign of
`lastResult`, and stop at the first trade that does not. -/
def streakCount (lastResult : ℚ) : List Trade → ℕ
  | [] => 0
  | t :: rest =>
    if (0 < lastResult ∧ 0 < t.result) ∨ (lastResult < 0 ∧ t.result < 0) then
      streakCount lastResult rest + 1
    else 0

def calculateCurrentStreak (ts : List Trade) : Streak :=
  match sortDesc ts with
  | [] => { type := StreakType.none, count := 0 }
  | first :: rest =>
    let lastResult := first.result
    { type := if 0 < lastResult then StreakType.win else StreakType.loss,
      count := streakCount lastResult (first :: rest) }

/-! ## Max drawdown -/

structure DDState where
  peak : ℚ
  maxDrawdown : ℚ
  maxDrawdownPercent : ℚ
  runningTotal : ℚ
deriving DecidableEq, Repr

/-- The body of the `forEach` in `calculateMaxDrawdown`. -/
def ddStep (s : DDState) (t : Trade) : DDState :=
  let runningTotal := s.runningTotal + t.result
  let peak := max s.peak runningTotal
  let drawdown := peak - runningTotal
  { peak := peak,
    maxDrawdown := max s.maxDrawdown drawdown,
    maxDrawdownPercent :=
      if 0 < peak then max s.maxDrawdownPercent (drawdown / peak * 100)
      else s.maxDrawdownPercent,
    runningTotal := runningTotal }

/-- `calculateMaxDrawdown` returns `{maxDrawdown, maxDrawdownPercent}`,
modelled as a pair (first component `maxDrawdown`). -/
def calculateMaxDrawdown (ts : List Trade) : ℚ × ℚ :=
  let s := (sortAsc ts).foldl ddStep { peak := 0, maxDrawdown := 0, maxDrawdownPercent := 0, runningTotal := 0 }
  (s.maxDrawdown, s.maxDrawdownPercent)

/-- `calculateMaxDrawdown` calls `trades.sort(...)` directly on its argument,
and `Array.prototype.sort` sorts in place; this definition models the contents
of the caller's `filteredTrades` array after the call returns.  (The sibling
functions `calculateConsecutiveWins`, `calculateConsecutiveLosses` and
`calculateCurrentStreak` instead sort a copy `[...trades]`, after which the
caller's array is unchanged; `equityData` and `rollingWinRate` also sort
`filteredTrades` in place.) -/
def calculateMaxDrawdownPost (trades : List Trade) : List Trade :=
  sortAsc trades

/-- Convenience constructor for concrete test trades: a closed trade with the
given timestamp and result, all price fields zero. -/
def sTrade (ts : ℤ) (r : ℚ) : Trade :=
  { id := "", instrument := "", lotSize := 1, entryPrice := 0, stopLoss := 0,
    takeProfit := 0, result := r, timestamp := ts, openDate := 0,
    closeDate := Option.none, status := Status.closed }

/-! ## Day-of-week aggregation (`dayOfWeekAnalysis`) -/

/-- `new Date(trade.timestamp).getDay()` on an epoch-millisecond value, in
UTC: day 0 of the epoch (1970-01-01) was a Thursday (day number 4), and day
numbers run Sunday = 0 .. Saturday = 6. -/
def getDay (t : Trade) : ℤ := (t.timestamp.fdiv 86400000 + 4) % 7

/-- The `dayMap` lookup table of `dayOfWeekAnalysis`. -/
def dayMap (n : ℤ) : String :=
  if n = 0 then "Sunday"
  else if n = 1 then "Monday"
  else if n = 2 then "Tuesday"
  else if n = 3 then "Wednesday"
  else if n = 4 then "Thursday"
  else if n = 5 then "Friday"
  else "Saturday"

def dayName (t : Trade) : String := dayMap (getDay t)

def allDays : List String := ["Monday", "Tuesday", "Wednesday", "Thursday", "Friday"]

structure DayStats where
  trades : ℕ
  wins : ℕ
  totalPnL : ℚ
deriving DecidableEq, Repr

/-- The per-key update of the `reduce` in `dayOfWeekAnalysis`: create the
bucket on first sight (`if (!acc[day]) acc[day] = {...}`), then increment. -/
def bumpStats (o : Option DayStats) (t : Trade) : Option DayStats :=
  let cur := o.getD { trades := 0, wins := 0, totalPnL := 0 }
  some { trades := cur.trades + 1,
         wins := if 0 < t.result then cur.wins + 1 else cur.wins,
         totalPnL := cur.totalPnL + t.result }

/-- One step of the `reduce` in `dayOfWeekAnalysis`: weekend trades are
skipped (`if (day === 'Saturday' || day === 'Sunday') return acc`), and the
accumulator object is modelled as a map from day name to an optional bucket. -/
def dayStatsStep (acc : String → Option DayStats) (t : Trade) : String → Option DayStats :=
  if dayName t = "Saturday" ∨ dayName t = "Sunday" then acc
  else fun d => if d = dayName t then bumpStats (acc d) t else acc d

def dayStats (ts : List Trade) : String → Option DayStats :=
  ts.foldl dayStatsStep (fun _ => Option.none)

/-- One output row of `dayOfWeekAnalysis` (the presentation-only `fill`
color is dropped). -/
structure DayRow where
  day : String
  fullDay : String
  trades : ℕ
  winRate : ℚ
  avgPnL : ℚ
  totalPnL : ℚ
deriving DecidableEq, Repr

/-- The row built for one weekday in the final `allDays.map`. -/
def dayRow (st : Option DayStats) (day : String) : DayRow :=
  { day := day.take 3,
    fullDay := day,
    trades := (st.map (fun s => s.trades)).getD 0,
    winRate :=
      match st with
      | some s => if 0 < s.trades then (s.wins : ℚ) / s.trades * 100 else 0
      | Option.none => 0,
    avgPnL :=
      match st with
      | some s => if 0 < s.trades then s.totalPnL / s.trades else 0
      | Option.none => 0,
    totalPnL := (st.map (fun s => s.totalPnL)).getD 0 }

def dayOfWeekAnalysis (ts : List Trade) : List DayRow :=
  allDays.map (fun day => dayRow (dayStats ts day) day)

/-! ## Rolling win rate (`rollingWinRate`) -/

structure RollingPoint where
  trade : ℕ
  winRate : ℚ
deriving DecidableEq, Repr

/-- The body of the `map` in `rollingWinRate` at a kept index:
`arr.slice(index - windowSize + 1, index + 1)` is the window. -/
def rollingBody (arr : List Trade) (windowSize : ℕ) (index : ℕ) : RollingPoint :=
  let window := (arr.take (index + 1)).drop (index + 1 - windowSize)
  let wins := (window.filter (fun t => 0 < t.result)).length
  { trade := index + 1, winRate := (wins : ℚ) / windowSize * 100 }

/-- `rollingWinRate`: window size `min(20, length)`, empty below 5; the
`map`-to-`null`-then-`filter(Boolean)` of the source is a `filterMap` over
the indices of the sorted list. -/
def rollingWinRate (ts : List Trade) : List RollingPoint :=
  let windowSize := min 20 ts.length
  if windowSize < 5 then []
  else
    (List.range (sortAsc ts).length).filterMap (fun index =>
      if index < windowSize - 1 then Option.none
      else some (rollingBody (sortAsc ts) windowSize index))

/-! ## Risk/reward scatter (`riskRewardScatter`) -/

def risk (t : Trade) : ℚ := |t.entryPrice - t.stopLoss| * t.lotSize * 10000

def reward (t : Trade) : ℚ := |t.takeProfit - t.entryPrice| * t.lotSize * 10000

/-- `const rr = risk > 0 ? reward / risk : 0` -/
def plannedRR (t : Trade) : ℚ := if 0 < risk t then reward t / risk t else 0

structure ScatterRow where
  plannedRR : ℚ
  actualPnL : ℚ
  instrument : String
  outcome : String
deriving DecidableEq, Repr

def scatterRow (t : Trade) : ScatterRow :=
  { plannedRR := plannedRR t,
    actualPnL := t.result,
    instrument := t.instrument,
    outcome := if 0 < t.result then "Win" else "Loss" }

/-- `riskRewardScatter`: filter to trades whose `stopLoss` and `takeProfit`
are truthy (nonzero), map to rows, then filter to `0 < plannedRR < 10`. -/
def riskRewardScatter (ts : List Trade) : List ScatterRow :=
  ((ts.filter (fun t => t.stopLoss ≠ 0 ∧ t.takeProfit ≠ 0)).map scatterRow).filter
    (fun r => 0 < r.plannedRR ∧ r.plannedRR < 10)

/-! ## Concrete inputs used by witnesses and counterexamples -/

/-- The streak scenario of the spec: results `[+50, +30, −20, +40, +40, +40]`
in ascending timestamp order. -/
def streakTrades : List Trade :=
  [sTrade 1 50, sTrade 2 30, sTrade 3 (-20), sTrade 4 40, sTrade 5 40, sTrade 6 40]

/-- One win of 1000 against one loss of 1: the raw profit-factor ratio is
1000, above the 999 cap. -/
def pfCapTrades : List Trade := [sTrade 1 1000, sTrade 2 (-1)]

/-- One win of 100 against one loss of 50: profit factor 2. -/
def pfRatioTrades : List Trade := [sTrade 1 100, sTrade 2 (-50)]

/-- The spec's sentinel scenario: trades `[+100, +50]`, no losses. -/
def pfSentinelTrades : List Trade := [sTrade 1 100, sTrade 2 50]

/-- A tiny average win against a huge average loss: the Kelly fraction is
negative (no edge). -/
def kellyNegTrades : List Trade := [sTrade 1 1, sTrade 2 (-100)]

/-- The spec's all-win equity curve `[10, 10, 10]`. -/
def allWinTrades : List Trade := [sTrade 1 10, sTrade 2 10, sTrade 3 10]

/-- An equity curve whose running total never becomes positive. -/
def negPeakTrades : List Trade := [sTrade 1 (-5), sTrade 2 3]

def fourTrades : List Trade := [sTrade 1 10, sTrade 2 10, sTrade 3 10, sTrade 4 10]

def fiveTrades : List Trade :=
  [sTrade 1 10, sTrade 2 (-5), sTrade 3 10, sTrade 4 10, sTrade 5 (-5)]

def twentyTrades : List Trade := List.replicate 20 (sTrade 1 10)

/-- One trade on a Monday (epoch day 4) and one on a Saturday (epoch day 2). -/
def weekMixTrades : List Trade := [sTrade (4 * 86400000) 10, sTrade (2 * 86400000) 5]

/-- The Monday row `dayOfWeekAnalysis` produces for `weekMixTrades`. -/
def mondayRow : DayRow :=
  { day := "Mon", fullDay := "Monday", trades := 1, winRate := 100, avgPnL := 10, totalPnL := 10 }

/-- A planned trade: entry 1, stop 1/2, target 2, so planned R:R is 2. -/
def rrTrade : Trade := { sTrade 1 10 with entryPrice := 1, stopLoss := 1/2, takeProfit := 2 }

/-- Two trades stored in descending timestamp order. -/
def outOfOrderTrades : List Trade := [sTrade 2 10, sTrade 1 5]

/-! # Claim theorems -/

/-- Claim C2: for the trade list with results `[+50, +30, −20, +40, +40, +40]`
ordered ascending by timestamp, the streak analyzer returns
`maxConsecutiveWins = 3`, `maxConsecutiveLosses = 1` and a current streak of
3 wins. -/
theorem claim_C2 :
    calculateConsecutiveWins streakTrades = 3
    ∧ calculateConsecutiveLosses streakTrades = 1
    ∧ calculateCurrentStreak streakTrades = { type := StreakType.win, count := 3 } := by
  decide

/-- Claim C9 (code bug): `calculateMaxDrawdown` (like `equityData` and
`rollingWinRate`) sorts the shared `filteredTrades` array in place via
`Array.prototype.sort`; on a list whose trades are not already in ascending
timestamp order the caller's list is reordered, so the analytics computation
does mutate the trade list it consumes. -/
theorem claim_C9 : calculateMaxDrawdownPost outOfOrderTrades ≠ outOfOrderTrades := by
  decide

/-- Claim C1 (amended): `profitFactor` equals
`min ((avgWin × winCount) / (avgLoss × lossCount), 999)` when the denominator
is positive (the source caps the ratio at 999 in all cases, not only the
zero-denominator one); it is the sentinel 999 when the denominator is 0 and
the numerator is positive, and 0 when both are 0. -/
theorem claim_C1 (ts : List Trade) :
    (0 < avgLoss ts * lossCount ts →
      profitFactor ts = min (avgWin ts * winCount ts / (avgLoss ts * lossCount ts)) 999)
    ∧ (avgLoss ts * lossCount ts = 0 → 0 < avgWin ts * winCount ts → profitFactor ts = 999)
    ∧ (avgLoss ts * lossCount ts = 0 → avgWin ts * winCount ts = 0 → profitFactor ts = 0) := by
  refine ⟨fun h => ?_, fun h0 hn => ?_, fun h0 hn => ?_⟩
  · have hraw : profitFactorRaw ts = avgWin ts * winCount ts / (avgLoss ts * lossCount ts) := by
      unfold profitFactorRaw totalWinAmount totalLossAmount
      rw [if_pos h]
    unfold profitFactor
    rw [hraw]
    rcases le_or_lt (avgWin ts * winCount ts / (avgLoss ts * lossCount ts)) 999 with h1 | h1
    · rw [if_neg (not_lt.2 h1), min_eq_left h1]
    · rw [if_pos h1, min_eq_right h1.le]
  · have hraw : profitFactorRaw ts = 999 := by
      unfold profitFactorRaw totalWinAmount totalLossAmount
      rw [h0, if_neg (lt_irrefl (0 : ℚ)), if_pos hn]
    unfold profitFactor
    rw [hraw, if_neg (lt_irrefl (999 : ℚ))]
  · have hraw : profitFactorRaw ts = 0 := by
      unfold profitFactorRaw totalWinAmount totalLossAmount
      rw [h0, hn, if_neg (lt_irrefl (0 : ℚ)), if_neg (lt_irrefl (0 : ℚ))]
    unfold profitFactor
    rw [hraw, if_neg (by norm_num : ¬(999 : ℚ) < 0)]

/-- Counterexample to claim C1 as stated: for `pfCapTrades` the denominator
`avgLoss × lossCount` is positive, yet `profitFactor` is not the ratio
`(avgWin × winCount) / (avgLoss × lossCount)` (which is 1000): the source
caps it at 999. -/
theorem claim_C1_counterexample :
    0 < avgLoss pfCapTrades * lossCount pfCapTrades
    ∧ profitFactor pfCapTrades ≠
        avgWin pfCapTrades * winCount pfCapTrades /
          (avgLoss pfCapTrades * lossCount pfCapTrades) := by
  decide

/-- Witness for claim C1: both hypothesis branches hold at concrete inputs. -/
theorem claim_C1_witness :
    (0 < avgLoss pfRatioTrades * lossCount pfRatioTrades
      ∧ profitFactor pfRatioTrades =
          min (avgWin pfRatioTrades * winCount pfRatioTrades /
            (avgLoss pfRatioTrades * lossCount pfRatioTrades)) 999)
    ∧ (avgLoss pfSentinelTrades * lossCount pfSentinelTrades = 0
      ∧ profitFactor pfSentinelTrades = 999) :=
  ⟨⟨by decide, (claim_C1 pfRatioTrades).1 (by decide)⟩,
   ⟨by decide, (claim_C1 pfSentinelTrades).2.1 (by decide) (by decide)⟩⟩

/-- Claim C4: `kellyPercent` is
`((winRate/100) − ((100−winRate)/100) / avgRR) × 100` when `winRate > 0` and
`avgLoss > 0`, and 0 otherwise; the value is returned unclamped and can be
negative. -/
theorem claim_C4 (ts : List Trade) :
    (0 < winRate ts ∧ 0 < avgLoss ts →
      kellyPercent ts = ((winRate ts / 100) - ((100 - winRate ts) / 100) / avgRR ts) * 100)
    ∧ (¬(0 < winRate ts ∧ 0 < avgLoss ts) → kellyPercent ts = 0)
    ∧ ∃ l : List Trade, kellyPercent l < 0 := by
  refine ⟨fun h => ?_, fun h => ?_, ⟨kellyNegTrades, by decide⟩⟩
  · unfold kellyPercent
    rw [if_pos h]
  · unfold kellyPercent
    rw [if_neg h]

/-- Witness for claim C4: both branches at concrete inputs. -/
theorem claim_C4_witness :
    kellyPercent kellyNegTrades =
      ((winRate kellyNegTrades / 100) -
        ((100 - winRate kellyNegTrades) / 100) / avgRR kellyNegTrades) * 100
    ∧ kellyPercent [] = 0 :=
  ⟨(claim_C4 kellyNegTrades).1 (by decide), (claim_C4 []).2.1 (by decide)⟩

/-- Claim C10: when the most recent trade of a non-empty list (the head of
the descending sort) has result 0, `calculateCurrentStreak` returns
`{type: loss, count: 0}`; the type `none` is returned exactly for the empty
list. -/
theorem claim_C10 (ts : List Trade) :
    (∀ t rest, sortDesc ts = t :: rest → t.result = 0 →
      calculateCurrentStreak ts = { type := StreakType.loss, count := 0 })
    ∧ ((calculateCurrentStreak ts).type = StreakType.none ↔ ts = []) := by
  have hlen : (sortDesc ts).length = ts.length := by
    unfold sortDesc
    exact (List.perm_insertionSort _ ts).length_eq
  constructor
  · intro t rest heq hres
    simp only [calculateCurrentStreak, heq, hres]
    simp [streakCount, hres]
  · constructor
    · intro h
      by_contra hne
      have hne' : sortDesc ts ≠ [] := by
        intro hnil
        exact hne (List.length_eq_zero.mp (by rw [← hlen, hnil]; rfl))
      obtain ⟨t, rest, heq⟩ := List.exists_cons_of_ne_nil hne'
      simp only [calculateCurrentStreak, heq] at h
      split at h
      · exact StreakType.noConfusion h
      · exact StreakType.noConfusion h
    · intro h
      subst h
      rfl

/-- Witness for claim C10: a single trade with result 0. -/
theorem claim_C10_witness :
    calculateCurrentStreak [sTrade 1 0] = { type := StreakType.loss, count := 0 } :=
  (claim_C10 [sTrade 1 0]).1 (sTrade 1 0) [] (by decide) (by decide)

/-- The walk in `calculateMaxDrawdown` never decreases `maxDrawdown`. -/
theorem ddStep_maxDrawdown_mono (l : List Trade) :
    ∀ s : DDState, s.maxDrawdown ≤ (l.foldl ddStep s).maxDrawdown := by
  induction l with
  | nil => intro s; exact le_refl _
  | cons a l ih =>
    intro s
    refine le_trans ?_ (ih (ddStep s a))
    unfold ddStep
    exact le_max_left _ _

/-- On an all-win list, starting from a state whose peak equals its running
total, the walk leaves `maxDrawdown` unchanged (given it is nonnegative). -/
theorem ddStep_allwin (l : List Trade) :
    ∀ s : DDState, (∀ t ∈ l, 0 < t.result) → s.peak = s.runningTotal →
      0 ≤ s.maxDrawdown → (l.foldl ddStep s).maxDrawdown = s.maxDrawdown := by
  induction l with
  | nil => intro s _ _ _; rfl
  | cons a l ih =>
    intro s hall hpr hnn
    have ha : 0 < a.result := hall a (List.mem_cons_self a l)
    have hmax : max s.runningTotal (s.runningTotal + a.result) = s.runningTotal + a.result :=
      max_eq_right (by linarith)
    have h1 : (ddStep s a).peak = (ddStep s a).runningTotal := by
      simp only [ddStep]
      rw [hpr]
      exact hmax
    have h2 : (ddStep s a).maxDrawdown = s.maxDrawdown := by
      simp only [ddStep]
      rw [hpr, hmax, sub_self]
      exact max_eq_left hnn
    rw [show (a :: l).foldl ddStep s = l.foldl ddStep (ddStep s a) from rfl,
      ih (ddStep s a) (fun t ht => hall t (List.mem_cons_of_mem a ht)) h1 (h2 ▸ hnn), h2]

/-- When every prefix sum from the current running total stays nonpositive,
the walk keeps `peak = 0` and never touches `maxDrawdownPercent`. -/
theorem ddStep_nonpos (l : List Trade) :
    ∀ s : DDState, s.peak = 0 → s.maxDrawdownPercent = 0 →
      (∀ n ≤ l.length, s.runningTotal + ((l.take n).map (fun t => t.result)).sum ≤ 0) →
      (l.foldl ddStep s).maxDrawdownPercent = 0 := by
  induction l with
  | nil => intro s _ h2 _; exact h2
  | cons a l ih =>
    intro s h1 h2 h3
    have hr : s.runningTotal + a.result ≤ 0 := by
      have h := h3 1 (by simp)
      simpa using h
    have hmax : max s.peak (s.runningTotal + a.result) = 0 := by
      rw [h1]
      exact max_eq_left hr
    have hp : (ddStep s a).peak = 0 := by
      simp only [ddStep]
      exact hmax
    have hpc : (ddStep s a).maxDrawdownPercent = 0 := by
      simp only [ddStep]
      rw [hmax, if_neg (lt_irrefl (0 : ℚ))]
      exact h2
    refine ih (ddStep s a) hp hpc (fun n hn => ?_)
    have h := h3 (n + 1) (by simpa using hn)
    have hrun : (ddStep s a).runningTotal = s.runningTotal + a.result := rfl
    rw [hrun]
    simpa [List.take_succ_cons, add_assoc] using h

/-- Claim C3: `maxDrawdown` is always nonnegative; it is 0 on a list of
strictly positive results; and when every running prefix sum of the sorted
list is nonpositive (so the peak never becomes positive),
`maxDrawdownPercent` is 0. -/
theorem claim_C3 (ts : List Trade) :
    0 ≤ (calculateMaxDrawdown ts).1
    ∧ ((∀ t ∈ ts, 0 < t.result) → (calculateMaxDrawdown ts).1 = 0)
    ∧ ((∀ n ≤ ts.length, (((sortAsc ts).take n).map (fun t => t.result)).sum ≤ 0) →
        (calculateMaxDrawdown ts).2 = 0) := by
  have hperm : ∀ t, t ∈ sortAsc ts → t ∈ ts := by
    intro t ht
    unfold sortAsc at ht
    exact (List.perm_insertionSort _ ts).mem_iff.mp ht
  have hlen : (sortAsc ts).length = ts.length := by
    unfold sortAsc
    exact (List.perm_insertionSort _ ts).length_eq
  refine ⟨?_, fun h => ?_, fun h => ?_⟩
  · exact ddStep_maxDrawdown_mono (sortAsc ts)
      { peak := 0, maxDrawdown := 0, maxDrawdownPercent := 0, runningTotal := 0 }
  · exact ddStep_allwin (sortAsc ts)
      { peak := 0, maxDrawdown := 0, maxDrawdownPercent := 0, runningTotal := 0 }
      (fun t ht => h t (hperm t ht)) rfl (le_refl 0)
  · refine ddStep_nonpos (sortAsc ts)
      { peak := 0, maxDrawdown := 0, maxDrawdownPercent := 0, runningTotal := 0 }
      rfl rfl (fun n hn => ?_)
    have := h n (hlen ▸ hn)
    simpa using this

/-- Witness for claim C3: the all-win curve `[10,10,10]` has zero drawdown,
and a curve whose running total never becomes positive has zero drawdown
percent. -/
theorem claim_C3_witness :
    (calculateMaxDrawdown allWinTrades).1 = 0 ∧ (calculateMaxDrawdown negPeakTrades).2 = 0 :=
  ⟨(claim_C3 allWinTrades).2.1 (by decide), (claim_C3 negPeakTrades).2.2 (by decide)⟩

/-- A `filterMap` that rejects every index below `k` yields nothing on a
range lying entirely below `k`. -/
theorem filterMap_range_below {α : Type} (f : ℕ → Option α) (k : ℕ)
    (hf : ∀ i, i < k → f i = Option.none) :
    ∀ (m s : ℕ), s + m ≤ k → (List.range' s m).filterMap f = [] := by
  intro m
  induction m with
  | zero => intro s _; rfl
  | succ m ih =>
    intro s hs
    rw [List.range'_succ, List.filterMap_cons, hf s (by omega)]
    exact ih (s + 1) (by omega)

/-- A `filterMap` that keeps every index from `k` upward is a `map` on a
range lying entirely at or above `k`. -/
theorem filterMap_range_above {α : Type} (f : ℕ → Option α) (g : ℕ → α) (k : ℕ)
    (hf : ∀ i, k ≤ i → f i = some (g i)) :
    ∀ (m s : ℕ), k ≤ s → (List.range' s m).filterMap f = (List.range' s m).map g := by
  intro m
  induction m with
  | zero => intro s _; rfl
  | succ m ih =>
    intro s hs
    rw [List.range'_succ, List.filterMap_cons, hf s hs, List.map_cons]
    rw [ih (s + 1) (by omega)]

theorem map_succ_range' : ∀ (m s : ℕ), (List.range' s m).map (fun i => i + 1) = List.range' (s + 1) m := by
  intro m
  induction m with
  | zero => intro s; rfl
  | succ m ih =>
    intro s
    rw [List.range'_succ, List.map_cons, ih (s + 1), List.range'_succ]

/-- When the window is large enough, `rollingWinRate` is a `map` over the
kept index range. -/
theorem rollingWinRate_eq (ts : List Trade) (h : 5 ≤ min 20 ts.length) :
    rollingWinRate ts =
      (List.range' (min 20 ts.length - 1) (ts.length - min 20 ts.length + 1)).map
        (rollingBody (sortAsc ts) (min 20 ts.length)) := by
  have hwle : min 20 ts.length ≤ ts.length := min_le_right _ _
  have hlen : (sortAsc ts).length = ts.length := by
    unfold sortAsc
    exact (List.perm_insertionSort _ ts).length_eq
  unfold rollingWinRate
  rw [if_neg (by omega)]
  rw [hlen]
  have hsplit : List.range ts.length =
      List.range' 0 (min 20 ts.length - 1) ++
        List.range' (min 20 ts.length - 1) (ts.length - min 20 ts.length + 1) := by
    have happ := List.range'_append 0 (min 20 ts.length - 1) (ts.length - min 20 ts.length + 1) 1
    simp only [Nat.one_mul, Nat.zero_add] at happ
    have hsum : ts.length = ts.length - min 20 ts.length + 1 + (min 20 ts.length - 1) := by
      omega
    rw [List.range_eq_range']
    conv_lhs => rw [hsum]
    exact happ.symm
  rw [hsplit, List.filterMap_append]
  rw [filterMap_range_below _ (min 20 ts.length - 1) (fun i hi => if_pos hi) _ 0 (by omega)]
  rw [filterMap_range_above _ (rollingBody (sortAsc ts) (min 20 ts.length))
    (min 20 ts.length - 1) (fun i hi => if_neg (not_lt.2 hi)) _ _ (le_refl _)]
  exact List.nil_append _

/-- Claim C7 (amended): when the window size `min(20, tradeCount)` is at
least 5, the rolling-win-rate output has exactly
`tradeCount − windowSize + 1` points (not `tradeCount − windowSize`), whose
trade indices are the ascending range `windowSize, …, tradeCount`. -/
theorem claim_C7 (ts : List Trade) (h : 5 ≤ min 20 ts.length) :
    (rollingWinRate ts).length = ts.length - min 20 ts.length + 1
    ∧ (rollingWinRate ts).map (fun p => p.trade) =
        List.range' (min 20 ts.length) (ts.length - min 20 ts.length + 1) := by
  constructor
  · rw [rollingWinRate_eq ts h]
    rw [List.length_map, List.length_range']
  · rw [rollingWinRate_eq ts h, List.map_map]
    have hcomp : ((fun p : RollingPoint => p.trade) ∘
        rollingBody (sortAsc ts) (min 20 ts.length)) = fun i => i + 1 := rfl
    rw [hcomp, map_succ_range']
    congr 1
    omega

/-- Counterexample to claim C7 as stated: a five-trade list has window size
5 and the output has 1 point, not `tradeCount − windowSize = 0` points. -/
theorem claim_C7_counterexample :
    (rollingWinRate fiveTrades).length ≠ fiveTrades.length - min 20 fiveTrades.length := by
  decide

/-- Witness for claim C7: the five-trade list. -/
theorem claim_C7_witness :
    (rollingWinRate fiveTrades).length = fiveTrades.length - min 20 fiveTrades.length + 1
    ∧ (rollingWinRate fiveTrades).map (fun p => p.trade) =
        List.range' (min 20 fiveTrades.length)
          (fiveTrades.length - min 20 fiveTrades.length + 1) :=
  claim_C7 fiveTrades (by decide)

/-- Claim C6: the rolling-win-rate series is empty whenever the window size
`min(20, tradeCount)` is below 5 (in particular for 4 trades), and a list of
exactly 20 trades yields exactly one data point. -/
theorem claim_C6 (ts : List Trade) :
    (min 20 ts.length < 5 → rollingWinRate ts = [])
    ∧ (ts.length = 20 → (rollingWinRate ts).length = 1) := by
  constructor
  · intro h
    unfold rollingWinRate
    rw [if_pos h]
  · intro h
    have h5 : 5 ≤ min 20 ts.length := by omega
    rw [rollingWinRate_eq ts h5, List.length_map, List.length_range']
    omega

/-- Witness for claim C6: four trades give an empty series, twenty trades
give one point. -/
theorem claim_C6_witness :
    rollingWinRate fourTrades = [] ∧ (rollingWinRate twentyTrades).length = 1 :=
  ⟨(claim_C6 fourTrades).1 (by decide), (claim_C6 twentyTrades).2 (by decide)⟩

/-- For a non-weekend key `d`, the grouped `reduce` of `dayOfWeekAnalysis`
reads back as a fold of the bucket update over exactly the trades whose day
name is `d`. -/
theorem dayStats_foldl (d : String) (hd : ¬(d = "Saturday" ∨ d = "Sunday")) :
    ∀ (l : List Trade) (acc : String → Option DayStats),
      (l.foldl dayStatsStep acc) d =
        (l.filter (fun t => dayName t = d)).foldl bumpStats (acc d) := by
  intro l
  induction l with
  | nil => intro acc; rfl
  | cons a l ih =>
    intro acc
    rw [List.foldl_cons, ih (dayStatsStep acc a), List.filter_cons]
    by_cases hw : dayName a = "Saturday" ∨ dayName a = "Sunday"
    · have hne : ¬(dayName a = d) := by
        rcases hw with h | h
        · rw [h]; intro he; exact hd (Or.inl he.symm)
        · rw [h]; intro he; exact hd (Or.inr he.symm)
      have hstep : dayStatsStep acc a = acc := by
        unfold dayStatsStep
        rw [if_pos hw]
      rw [hstep, if_neg (by simpa using hne)]
    · have hstep : (dayStatsStep acc a) d =
          if d = dayName a then bumpStats (acc d) a else acc d := by
        unfold dayStatsStep
        rw [if_neg hw]
      by_cases hda : d = dayName a
      · have hdec : (decide (dayName a = d)) = true := by simp [hda]
        rw [hstep, if_pos hda, if_pos hdec, List.foldl_cons]
      · have hdec : ¬((decide (dayName a = d)) = true) := by
          simp only [decide_eq_true_eq]
          intro he
          exact hda he.symm
        rw [hstep, if_neg hda, if_neg hdec]

/-- Folding the bucket update over `l` adds `l.length` to the trade count. -/
theorem bumpStats_trades :
    ∀ (l : List Trade) (o : Option DayStats),
      ((l.foldl bumpStats o).map (fun s => s.trades)).getD 0 =
        ((o.map (fun s => s.trades)).getD 0) + l.length := by
  intro l
  induction l with
  | nil => intro o; simp
  | cons a l ih =>
    intro o
    rw [show (a :: l).foldl bumpStats o = l.foldl bumpStats (bumpStats o a) from rfl, ih]
    have hb : (((bumpStats o a).map (fun s => s.trades)).getD 0) =
        ((o.map (fun s => s.trades)).getD 0) + 1 := by
      cases o <;> rfl
    rw [hb, List.length_cons]
    omega

/-- Membership in `allDays` rules out the weekend names. -/
theorem mem_allDays_not_weekend (d : String) (hd : d ∈ allDays) :
    ¬(d = "Saturday" ∨ d = "Sunday") := by
  fin_cases hd <;> decide

/-- Claim C5: the weekday aggregation always emits the five rows Monday–Friday
in order; weekend trades are excluded from the view entirely (filtering them
away changes nothing); and each row's trade count is the number of trades on
that weekday, zero-filled when there are none. -/
theorem claim_C5 (ts : List Trade) :
    (dayOfWeekAnalysis ts).map (fun r => r.fullDay) = allDays
    ∧ dayOfWeekAnalysis ts =
        dayOfWeekAnalysis (ts.filter (fun t => ¬(dayName t = "Saturday" ∨ dayName t = "Sunday")))
    ∧ ∀ r ∈ dayOfWeekAnalysis ts,
        r.trades = (ts.filter (fun t => dayName t = r.fullDay)).length := by
  refine ⟨rfl, ?_, ?_⟩
  · unfold dayOfWeekAnalysis
    refine List.map_congr_left (fun d hd => ?_)
    have hnw := mem_allDays_not_weekend d hd
    have hleft := dayStats_foldl d hnw ts (fun _ => Option.none)
    have hright := dayStats_foldl d hnw
      (ts.filter (fun t => ¬(dayName t = "Saturday" ∨ dayName t = "Sunday")))
      (fun _ => Option.none)
    have hfilters :
        (ts.filter (fun t => ¬(dayName t = "Saturday" ∨ dayName t = "Sunday"))).filter
            (fun t => dayName t = d) =
          ts.filter (fun t => dayName t = d) := by
      rw [List.filter_filter]
      refine List.filter_congr (fun t _ => ?_)
      by_cases ht : dayName t = d
      · simpa [ht] using not_or.mp hnw
      · simp [ht]
    unfold dayStats
    rw [hleft, hright, hfilters]
  · intro r hr
    obtain ⟨d, hd, rfl⟩ := List.mem_map.mp hr
    have hnw := mem_allDays_not_weekend d hd
    have hfd : (dayRow (dayStats ts d) d).fullDay = d := rfl
    have htr : (dayRow (dayStats ts d) d).trades =
        (((dayStats ts d).map (fun s => s.trades)).getD 0) := rfl
    rw [hfd, htr]
    unfold dayStats
    rw [dayStats_foldl d hnw ts (fun _ => Option.none), bumpStats_trades]
    simp

/-- Witness for claim C5: with one Monday trade and one Saturday trade, the
Monday row is in the output and counts exactly the Monday trade. -/
theorem claim_C5_witness :
    mondayRow.trades = (weekMixTrades.filter (fun t => dayName t = mondayRow.fullDay)).length :=
  (claim_C5 weekMixTrades).2.2 mondayRow (by decide)

/-- `riskRewardScatter` in fused form: a single filter over the trades
followed by the row map. -/
theorem riskRewardScatter_eq (ts : List Trade) :
    riskRewardScatter ts =
      (ts.filter (fun t =>
        (t.stopLoss ≠ 0 ∧ t.takeProfit ≠ 0) ∧ 0 < plannedRR t ∧ plannedRR t < 10)).map
        scatterRow := by
  unfold riskRewardScatter
  rw [List.filter_map, List.filter_filter]
  refine congrArg _ (List.filter_congr (fun t _ => ?_))
  simp only [Function.comp_apply, scatterRow]
  rw [← Bool.decide_and]
  exact decide_eq_decide.mpr (by tauto)

/-- A positive planned risk:reward ratio forces a nonzero planned risk, so
the entry and stop prices differ. -/
theorem entry_ne_stop_of_plannedRR_pos (t : Trade) (h : 0 < plannedRR t) :
    t.entryPrice ≠ t.stopLoss := by
  intro he
  unfold plannedRR at h
  by_cases hr : 0 < risk t
  · have hz : risk t = 0 := by
      unfold risk
      rw [he, sub_self, abs_zero, zero_mul, zero_mul]
    rw [hz] at hr
    exact lt_irrefl 0 hr
  · rw [if_neg hr] at h
    exact lt_irrefl 0 h

/-- Claim C8: the scatter output is exactly the trades with nonzero stop and
target whose planned R:R lies in (0, 10), paired with the realized result and
a Win/Loss outcome that is "Win" exactly when the result is positive;
zero-risk trades (entry = stop) are excluded without any division by zero
(the ratio is guarded to 0 when the risk is 0). -/
theorem claim_C8 (ts : List Trade) :
    riskRewardScatter ts =
      (ts.filter (fun t =>
        (t.stopLoss ≠ 0 ∧ t.takeProfit ≠ 0) ∧ 0 < plannedRR t ∧ plannedRR t < 10)).map
        scatterRow
    ∧ riskRewardScatter ts =
        riskRewardScatter (ts.filter (fun t => t.entryPrice ≠ t.stopLoss))
    ∧ ∀ r ∈ riskRewardScatter ts, (r.outcome = "Win" ↔ 0 < r.actualPnL) := by
  refine ⟨riskRewardScatter_eq ts, ?_, ?_⟩
  · rw [riskRewardScatter_eq ts,
      riskRewardScatter_eq (ts.filter (fun t => t.entryPrice ≠ t.stopLoss)),
      List.filter_filter]
    refine congrArg _ (List.filter_congr (fun t _ => ?_)).symm
    by_cases hP : (t.stopLoss ≠ 0 ∧ t.takeProfit ≠ 0) ∧ 0 < plannedRR t ∧ plannedRR t < 10
    · have hne : t.entryPrice ≠ t.stopLoss := entry_ne_stop_of_plannedRR_pos t hP.2.1
      simp [hP, hne]
    · simp [hP]
  · intro r hr
    rw [riskRewardScatter_eq ts] at hr
    obtain ⟨t, ht, rfl⟩ := List.mem_map.mp hr
    rw [show (scatterRow t).outcome = (if 0 < t.result then "Win" else "Loss") from rfl,
      show (scatterRow t).actualPnL = t.result from rfl]
    by_cases hw : 0 < t.result
    · rw [if_pos hw]
      exact iff_of_true rfl hw
    · rw [if_neg hw]
      exact iff_of_false (by decide) hw

/-- Witness for claim C8: the planned trade `rrTrade` produces a row whose
outcome is "Win" matching its positive result. -/
theorem claim_C8_witness :
    (scatterRow rrTrade).outcome = "Win" ↔ 0 < (scatterRow rrTrade).actualPnL :=
  (claim_C8 [rrTrade]).2.2 (scatterRow rrTrade) (by decide)
